import Mathlib

/-!
Shallow embedding of the Kaleidoscope JIT code generator
(`src/compiler_lib/src/visitor/codegenvisitor.cpp` over the AST of
`src/compiler_lib/include/ast.h`), together with theorems settling the
claims about it.

Modelling conventions:
* LLVM SSA values are `Value` (constants, instruction results by fresh id,
  function arguments); emitted instructions are recorded in an append-only
  `trace` of `(basic-block id, instruction)` events, mirroring the IR
  builder's insertion point.
* `namedValues` is an association list `name → alloca id`.  The C++ map's
  `operator[]` inserts a null entry for an absent key; a null entry is
  observationally identical to absence here (the map is never iterated,
  only looked up, cleared and erased), so lookups model it directly.
* LLVM's rename-on-collision for value names is not modelled; alloca names
  are recorded as requested (no claim depends on a collision).
* The JIT (`KaleidoscopeJIT`) is external library code: module submission
  is modelled by moving the module into `submitted`; symbol-address
  resolution plus native execution of `__anon_expr` is abstracted as an
  oracle `List Module → Option Float` (none models a `getAddress` error,
  which the driver skips).
-/

namespace CKalei

/-- AST for expressions, from `ast.h` (`NumberExprAST`, `VariableExprAST`,
`UnaryExprAST`, `BinaryExprAST`, `DeclarationExprAST`, `CallExprAST`,
`IfExprAST`, `ForExprAST`).  `ifE` with `elseE = none` is the
`haveElse = false` constructor. -/
inductive ExprAST where
  | number (val : Float)
  | variable (name : String)
  | unary (opcode : Char) (expr : ExprAST)
  | binary (op : Char) (left right : ExprAST)
  | declaration (vars : List (String × Option ExprAST)) (body : ExprAST)
  | call (callee : String) (args : List ExprAST)
  | ifE (cond thenE : ExprAST) (elseE : Option ExprAST)
  | forE (varName : String) (start stepE endE body : ExprAST)
deriving Repr

/-- `PrototypeAST` from `ast.h`. -/
structure PrototypeAST where
  name : String
  args : List String
  isOperator : Bool := false
  precedence : Int := 0
deriving Repr

/-- `FunctionAST` from `ast.h`. -/
structure FunctionAST where
  proto : PrototypeAST
  body : ExprAST
deriving Repr

/-- Top-level AST nodes (`ASTNode` subclasses reaching the code generator). -/
inductive ASTNode where
  | func (f : FunctionAST)
  | proto (p : PrototypeAST)
deriving Repr

/-- An `llvm::Value*`: constants, instruction results, function arguments. -/
inductive Value where
  | constFP (v : Float)
  | inst (id : Nat)
  | arg (i : Nat)
deriving Repr

/-- Emitted IR instructions (builder calls in `codegenvisitor.cpp`). -/
inductive Instr where
  | alloca (name : String) (id : Nat)
  | load (addr : Option Nat) (name : String) (id : Nat)
  | loadSlot (addr : Nat) (id : Nat)
  | store (v : Value) (addr : Nat)
  | fadd (l r : Value) (name : String) (id : Nat)
  | fsub (l r : Value) (name : String) (id : Nat)
  | fmul (l r : Value) (name : String) (id : Nat)
  | fdiv (l r : Value) (name : String) (id : Nat)
  | fcmpULT (l r : Value) (name : String) (id : Nat)
  | fcmpONE (l r : Value) (name : String) (id : Nat)
  | uiToFP (v : Value) (name : String) (id : Nat)
  | callInst (callee : String) (args : List Value) (name : String) (id : Nat)
  | br (dest : Nat)
  | condBr (cond : Value) (thenB elseB : Nat)
  | ret (v : Value)
  | phi (name : String) (id : Nat)
  | phiIncoming (phiId : Nat) (v : Value) (blk : Nat)
deriving Repr

/-- A function present in a module: name, arity and parameter names
(an `llvm::Function` declaration; bodies live in the trace). -/
structure FuncDecl where
  name : String
  arity : Nat
  argNames : List String
deriving Repr

/-- Association-list lookup (first binding wins; keys stay unique here). -/
def lookupA {α : Type} : List (String × α) → String → Option α
  | [], _ => none
  | (k', v) :: rest, k => if k' = k then some v else lookupA rest k

/-- Association-list insert-or-replace (`map[k] = v`). -/
def insertA {α : Type} : List (String × α) → String → α → List (String × α)
  | [], k, v => [(k, v)]
  | (k', v') :: rest, k, v =>
      if k' = k then (k, v) :: rest else (k', v') :: insertA rest k v

/-- Association-list erase (`map.erase(k)`). -/
def eraseA {α : Type} : List (String × α) → String → List (String × α)
  | [], _ => []
  | (k', v) :: rest, k =>
      if k' = k then eraseA rest k else (k', v) :: eraseA rest k

/-- State of one `CodeGenVisitor` instance (its member variables), plus the
builder/module/JIT state it owns.  `evaluationRes` is not a field: the C++
vector is pushed at exactly one site (`handleTopLevelExpression`), so the
driver functions below return the per-node contribution instead. -/
structure CGState where
  namedValues : List (String × Nat)
  allocaNames : List (Nat × String)
  trace : List (Nat × Instr)
  curBlock : Nat
  entryBlock : Nat
  nextId : Nat
  nextBlock : Nat
  module : List FuncDecl
  functionProtos : List (String × PrototypeAST)
  lastValue : Option Value
  lastFunction : Option FuncDecl
  diagnostics : List String
  jitTopLevel : Bool
  debug : Bool
  passes : List String
  passRuns : List (String × List String)
  submitted : List (List FuncDecl)
  assertFailed : Bool
deriving Repr

/-- Append an instruction at the builder's current insertion block. -/
def emit (s : CGState) (i : Instr) : CGState :=
  { s with trace := s.trace ++ [(s.curBlock, i)] }

/-- Allocate a fresh SSA value id. -/
def freshVal (s : CGState) : Nat × CGState :=
  (s.nextId, { s with nextId := s.nextId + 1 })

/-- Modelled from the spec: `createEntryBlockAlloca` (declared in
`visitor.h`, which is not under `src/`) allocates a named stack slot in the
entry block of the current function. -/
def createEntryBlockAlloca (s : CGState) (name : String) : Nat × CGState :=
  let (id, s) := freshVal s
  let s := { s with trace := s.trace ++ [(s.entryBlock, Instr.alloca name id)],
                    allocaNames := s.allocaNames ++ [(id, name)] }
  (id, s)

/-- Name an alloca was created with (`AllocaInst::getName`). -/
def allocaName (s : CGState) (a : Nat) : String :=
  ((s.allocaNames.find? (fun p => p.1 == a)).map (fun p => p.2)).getD ""

/-- Modelled from the spec: `logErrorV` (declared outside `src/`) reports a
diagnostic to standard error and returns a null value.  Call sites that
assign the result set `lastValue := none`; a bare call only logs. -/
def logError (s : CGState) (msg : String) : CGState :=
  { s with diagnostics := s.diagnostics ++ [msg] }

/-- The five optimization passes added by `initModuleAndPassManager` when
`debug` is false. -/
def theFivePasses : List String :=
  ["mem2reg", "instcombine", "reassociate", "gvn", "simplifycfg"]

/-- `initModuleAndPassManager`: fresh context, fresh module, fresh builder,
fresh function-pass manager whose passes depend on the `debug` flag. -/
def initModuleAndPassManager (s : CGState) : CGState :=
  { s with module := [], curBlock := 0, entryBlock := 0,
           passes := if !s.debug then theFivePasses else [] }

/-- State of a freshly constructed `CodeGenVisitor` (the constructor sets
`jitTopLevel = false`, `debug = false` and calls
`initModuleAndPassManager`). -/
def initialState : CGState :=
  initModuleAndPassManager
    { namedValues := [], allocaNames := [], trace := [], curBlock := 0,
      entryBlock := 0, nextId := 0, nextBlock := 1, module := [],
      functionProtos := [], lastValue := none, lastFunction := none,
      diagnostics := [], jitTopLevel := false, debug := false, passes := [],
      passRuns := [], submitted := [], assertFailed := false }

/-- The non-JIT branch of `visit(PrototypeAST&)`: create a
`(double, …) -> double` function with external linkage in the current
module, set its parameter names, and set `lastFunction`. -/
def visitProtoRaw (p : PrototypeAST) (s : CGState) : CGState :=
  let f : FuncDecl := ⟨p.name, p.args.length, p.args⟩
  { s with module := s.module ++ [f], lastFunction := some f }

/-- `handleTopLevelExtern`: clear the flag, emit the prototype, clone it
into `functionProtos`. -/
def handleTopLevelExtern (p : PrototypeAST) (s : CGState) : CGState :=
  let s := { s with jitTopLevel := false }
  let s := visitProtoRaw p s
  { s with functionProtos := insertA s.functionProtos p.name p }

/-- `visit(PrototypeAST&)`: dispatch on the `jitTopLevel` flag. -/
def visitProto (p : PrototypeAST) (s : CGState) : CGState :=
  if s.jitTopLevel then handleTopLevelExtern p s else visitProtoRaw p s

/-- `getFunction(name)`: current module first, then re-declaration from the
remembered prototype (by visiting it), else not found. -/
def getFunction (name : String) (s : CGState) : Option FuncDecl × CGState :=
  match s.module.find? (fun g => g.name == name) with
  | some f => (some f, s)
  | none =>
    match lookupA s.functionProtos name with
    | some p =>
        let s := visitProto p s
        (s.lastFunction, s)
    | none => (none, s)

/-- `visit(ForExprAST&)` prelude once the start value is computed: store it
into the slot, create the (attached) `loop` block, branch to it, move the
insertion point there, and install the loop variable's binding. -/
def forEntry (varName : String) (slot : Nat) (startV : Value) (s : CGState) :
    CGState :=
  let s := emit s (Instr.store startV slot)
  let loopBB := s.nextBlock
  let s := { s with nextBlock := s.nextBlock + 1 }
  let s := emit s (Instr.br loopBB)
  let s := { s with curBlock := loopBB }
  { s with namedValues := insertA s.namedValues varName slot }

/-- `visit(ForExprAST&)` induction-variable advance: load the slot, add the
step value (`nextvar`), store the result back. -/
def forAdvance (slot : Nat) (stepV : Value) (s : CGState) : CGState :=
  let (lid, s) := freshVal s
  let s := emit s (Instr.loadSlot slot lid)
  let (aid, s) := freshVal s
  let s := emit s (Instr.fadd (Value.inst lid) stepV "nextvar" aid)
  emit s (Instr.store (Value.inst aid) slot)

/-- `visit(ForExprAST&)` epilogue once the end value is computed: compare it
to 0.0 (`loopcond`), create the (attached) `afterloop` block, emit the
conditional back-edge, move insertion to `afterloop`, restore or erase the
shadowed binding, and yield 0.0. -/
def forExit (varName : String) (loopBB : Nat) (oldVar : Option Nat)
    (endV : Value) (s : CGState) : CGState :=
  let (c, s) := freshVal s
  let s := emit s (Instr.fcmpONE endV (Value.constFP 0.0) "loopcond" c)
  let afterBB := s.nextBlock
  let s := { s with nextBlock := s.nextBlock + 1 }
  let s := emit s (Instr.condBr (Value.inst c) loopBB afterBB)
  let s := { s with curBlock := afterBB }
  let s :=
    match oldVar with
    | some o => { s with namedValues := insertA s.namedValues varName o }
    | none => { s with namedValues := eraseA s.namedValues varName }
  { s with lastValue := some (Value.constFP 0.0) }

/-- The whole body of `visit(VariableExprAST&)`: look the name up, log
"Unknown variable name" on failure, and — because the source omits a
`return` there — fall through to `CreateLoad(varAddress, name)` in every
case. -/
def visitVariableCase (name : String) (s : CGState) : CGState :=
  let addr := lookupA s.namedValues name
  let s :=
    match addr with
    | none => { logError s "Unknown variable name" with lastValue := none }
    | some _ => s
  let (id, s) := freshVal s
  let s := emit s (Instr.load addr name id)
  { s with lastValue := some (Value.inst id) }

/-- Tail of `visit(UnaryExprAST&)` after the operand was emitted: null
check, resolve `unary<op>` (asserting it exists), emit the call. -/
def unaryFinish (opcode : Char) (s : CGState) : CGState :=
  match s.lastValue with
  | none => s
  | some v =>
    match getFunction ("unary".push opcode) s with
    | (none, s) => { s with assertFailed := true }
    | (some f, s) =>
      let (id, s) := freshVal s
      let s := emit s (Instr.callInst f.name [v] "binop" id)
      { s with lastValue := some (Value.inst id) }

/-- Tail of the `=` case of `visit(BinaryExprAST&)` after the right-hand
side was emitted: null check, slot lookup, store, yield the stored value. -/
def binAssignFinish (lname : String) (s : CGState) : CGState :=
  match s.lastValue with
  | none => s
  | some rv =>
    match lookupA s.namedValues lname with
    | none => { logError s "Unknown variable name" with lastValue := none }
    | some slot =>
      let s := emit s (Instr.store rv slot)
      { s with lastValue := some rv }

/-- Tail of the non-assignment case of `visit(BinaryExprAST&)` after both
operands were emitted (`lv` the left value, the state that of the right
emission): null checks, then the builtin operators or the user-defined
`binary<op>` call. -/
def binFinish (op : Char) (lv : Option Value) (s2 : CGState) : CGState :=
  match lv, s2.lastValue with
  | some lv, some rv =>
    (match op with
     | '+' =>
       let (id, s3) := freshVal s2
       { emit s3 (Instr.fadd lv rv "addtmp" id) with
           lastValue := some (Value.inst id) }
     | '-' =>
       let (id, s3) := freshVal s2
       { emit s3 (Instr.fsub lv rv "subtmp" id) with
           lastValue := some (Value.inst id) }
     | '*' =>
       let (id, s3) := freshVal s2
       { emit s3 (Instr.fmul lv rv "multmp" id) with
           lastValue := some (Value.inst id) }
     | '/' =>
       let (id, s3) := freshVal s2
       { emit s3 (Instr.fdiv lv rv "divtmp" id) with
           lastValue := some (Value.inst id) }
     | '<' =>
       let (c, s3) := freshVal s2
       let s3 := emit s3 (Instr.fcmpULT lv rv "cmptmp" c)
       let (b, s4) := freshVal s3
       { emit s4 (Instr.uiToFP (Value.inst c) "booltmp" b) with
           lastValue := some (Value.inst b) }
     | _ =>
       match getFunction ("binary".push op) s2 with
       | (none, s3) => { s3 with assertFailed := true }
       | (some f, s3) =>
         let (id, s4) := freshVal s3
         { emit s4 (Instr.callInst f.name [lv, rv] "binop" id) with
             lastValue := some (Value.inst id) })
  | _, _ => { s2 with lastValue := none }

/-- Tail of `visit(DeclarationExprAST&)` after the body was emitted: null
check, `namedValues.clear()`, then restore each saved non-null alloca under
its own name; the declaration's value is the body's value. -/
def declRestore (olds : List (Option Nat)) (s : CGState) : CGState :=
  match s.lastValue with
  | none => s
  | some bodyVal =>
    let s := { s with namedValues := [] }
    let s := olds.foldl
      (fun s o =>
        match o with
        | some a =>
            { s with namedValues := insertA s.namedValues (allocaName s a) a }
        | none => s) s
    { s with lastValue := some bodyVal }

/-- One binding step of `visit(DeclarationExprAST&)` after its initializer
was emitted: null check (aborting the declaration), store, remember the old
binding, install the new one. -/
def declBind (name : String) (a : Nat) (s : CGState) :
    CGState × Option (Option Nat) :=
  match s.lastValue with
  | none => (s, none)
  | some v =>
    let s := emit s (Instr.store v a)
    let old := lookupA s.namedValues name
    ({ s with namedValues := insertA s.namedValues name a }, some old)

/-- One binding step of `visit(DeclarationExprAST&)` with no initializer:
store the default 0.0, remember the old binding, install the new one. -/
def declBindDefault (name : String) (a : Nat) (s : CGState) :
    CGState × Option Nat :=
  let s := emit s (Instr.store (Value.constFP 0.0) a)
  let old := lookupA s.namedValues name
  ({ s with namedValues := insertA s.namedValues name a }, old)

/-- Head of `visit(CallExprAST&)`: resolve the callee (logging "Function
not found") and check the arity (logging "Invalid number of arguments"),
both before any argument is emitted.  Returns the callee's name when the
call may proceed. -/
def callCheck (callee : String) (nargs : Nat) (s : CGState) :
    CGState × Option String :=
  match getFunction callee s with
  | (none, s) =>
      ({ logError s "Function not found" with lastValue := none }, none)
  | (some f, s) =>
    if f.arity ≠ nargs then
      ({ logError s "Invalid number of arguments" with lastValue := none },
       none)
    else (s, some f.name)

/-- Tail of `visit(CallExprAST&)`: emit the call instruction. -/
def emitCallTmp (fname : String) (vals : List Value) (s : CGState) :
    CGState :=
  let (id, s) := freshVal s
  { emit s (Instr.callInst fname vals "calltmp" id) with
      lastValue := some (Value.inst id) }

/-- Head of `visit(IfExprAST&)` after the condition was emitted: null
check, compare-not-equal 0.0, create the `then`/`else`/`ifcont` blocks,
emit the conditional branch and move insertion into `then`.  Returns the
`else` and merge block ids when emission proceeds. -/
def ifSetup (s : CGState) : CGState × Option (Nat × Nat) :=
  match s.lastValue with
  | none => (s, none)
  | some condV =>
    let (c, s) := freshVal s
    let s := emit s (Instr.fcmpONE condV (Value.constFP 0.0) "ifcond" c)
    let thenBB := s.nextBlock
    let elseBB := s.nextBlock + 1
    let mergeBB := s.nextBlock + 2
    let s := { s with nextBlock := s.nextBlock + 3 }
    let s := emit s (Instr.condBr (Value.inst c) thenBB elseBB)
    ({ s with curBlock := thenBB }, some (elseBB, mergeBB))

/-- Middle of `visit(IfExprAST&)` after the then branch was emitted: null
check, branch to merge, re-fetch the current block (`thenEnd`), append the
`else` block and move insertion there.  Returns the then value and
`thenEnd` when emission proceeds. -/
def ifThenClose (elseBB mergeBB : Nat) (s : CGState) :
    CGState × Option (Value × Nat) :=
  match s.lastValue with
  | none => (s, none)
  | some thenV =>
    let s := emit s (Instr.br mergeBB)
    let thenEnd := s.curBlock
    ({ s with curBlock := elseBB }, some (thenV, thenEnd))

/-- Tail of `visit(IfExprAST&)` after the else branch was emitted: null
check, branch to merge, re-fetch `elseEnd`, append the merge block, move
insertion there, and build the phi with its two incomings. -/
def ifMerge (mergeBB : Nat) (thenInfo : Value × Nat) (s : CGState) :
    CGState :=
  match s.lastValue with
  | none => s
  | some elseV =>
    let s := emit s (Instr.br mergeBB)
    let elseEnd := s.curBlock
    let s := { s with curBlock := mergeBB }
    let (p, s) := freshVal s
    let s := emit s (Instr.phi "iftmp" p)
    let s := emit s (Instr.phiIncoming p thenInfo.1 thenInfo.2)
    let s := emit s (Instr.phiIncoming p elseV elseEnd)
    { s with lastValue := some (Value.inst p) }

/-- Head of `visit(ForExprAST&)` after the start value was emitted: null
check, then save the shadowed binding, record the `loop` block id and run
`forEntry`. -/
def forHeader (varName : String) (slot : Nat) (s : CGState) :
    CGState × Option (Nat × Option Nat) :=
  match s.lastValue with
  | none => (s, none)
  | some startV =>
    let oldVar := lookupA s.namedValues varName
    let loopBB := s.nextBlock
    (forEntry varName slot startV s, some (loopBB, oldVar))

/-- Step handling of `visit(ForExprAST&)` after the step value was emitted:
null check, then advance the induction variable with load-add-store. -/
def forStep (slot : Nat) (s : CGState) : CGState × Bool :=
  match s.lastValue with
  | none => (s, false)
  | some stepV => (forAdvance slot stepV s, true)

/-- Tail of `visit(ForExprAST&)` after the end value was emitted: null
check, then compare, branch and restore via `forExit`. -/
def forClose (varName : String) (loopBB : Nat) (oldVar : Option Nat)
    (s : CGState) : CGState :=
  match s.lastValue with
  | none => s
  | some endV => forExit varName loopBB oldVar endV s

mutual

/-- The expression cases of `CodeGenVisitor::visit`, one per `ExprAST`
variant, translated from `codegenvisitor.cpp`; the straight-line pieces
between recursive calls live in the helper functions above. -/
def visitExpr : ExprAST → CGState → CGState
  | ExprAST.number v, s => { s with lastValue := some (Value.constFP v) }
  | ExprAST.variable name, s => visitVariableCase name s
  | ExprAST.unary opcode e, s => unaryFinish opcode (visitExpr e s)
  | ExprAST.binary op l r, s =>
    if op = '=' then
      match l with
      | ExprAST.variable lname => binAssignFinish lname (visitExpr r s)
      | _ =>
          { logError s "destination of '=' must be a variable" with
              lastValue := none }
    else
      let s1 := visitExpr l s
      binFinish op s1.lastValue (visitExpr r s1)
  | ExprAST.declaration vars body, s =>
    match visitDeclVars vars s [] with
    | (s, _, false) => s
    | (s, olds, true) => declRestore olds (visitExpr body s)
  | ExprAST.call callee args, s =>
    match callCheck callee args.length s with
    | (s, none) => s
    | (s, some fname) =>
      match visitArgs args s [] with
      | (s, _, false) => s
      | (s, vals, true) => emitCallTmp fname vals s
  | ExprAST.ifE cond thenE elseE, s =>
    match ifSetup (visitExpr cond s) with
    | (s, none) => s
    | (s, some (elseBB, mergeBB)) =>
      match ifThenClose elseBB mergeBB (visitExpr thenE s) with
      | (s, none) => s
      | (s, some thenInfo) =>
        match elseE with
        | none =>
            -- the source calls `logErrorV` without assigning `lastValue`
            logError s "Omitted Else are not supported yet"
        | some eE => ifMerge mergeBB thenInfo (visitExpr eE s)
  | ExprAST.forE varName start stepE endE body, s =>
    match createEntryBlockAlloca s varName with
    | (slot, s) =>
      match forHeader varName slot (visitExpr start s) with
      | (s, none) => s
      | (s, some (loopBB, oldVar)) =>
        let s := visitExpr body s
        match s.lastValue with
        | none => s
        | some _ =>
          match forStep slot (visitExpr stepE s) with
          | (s, false) => s
          | (s, true) => forClose varName loopBB oldVar (visitExpr endE s)

/-- The `for` loop over the bindings of `visit(DeclarationExprAST&)`:
allocate, compute the initializer (default 0.0), store, remember the old
binding, install the new one.  Returns the shadow list and whether the loop
completed. -/
def visitDeclVars : List (String × Option ExprAST) → CGState →
    List (Option Nat) → CGState × List (Option Nat) × Bool
  | [], s, olds => (s, olds, true)
  | (name, init) :: rest, s, olds =>
    match createEntryBlockAlloca s name with
    | (a, s) =>
      match init with
      | some e =>
        match declBind name a (visitExpr e s) with
        | (s, none) => (s, olds, false)
        | (s, some old) => visitDeclVars rest s (olds ++ [old])
      | none =>
        match declBindDefault name a s with
        | (s, old) => visitDeclVars rest s (olds ++ [old])

/-- The argument loop of `visit(CallExprAST&)`: emit arguments left to
right, aborting on the first null. -/
def visitArgs : List ExprAST → CGState → List Value →
    CGState × List Value × Bool
  | [], s, acc => (s, acc, true)
  | e :: rest, s, acc =>
    let s := visitExpr e s
    match s.lastValue with
    | none => (s, acc, false)
    | some v => visitArgs rest s (acc ++ [v])

end

/-! Unfolding equations for `visitExpr`, one per AST constructor (the
mutual definition's own equational lemmas are too large to realize, but
each case reduces definitionally). -/

theorem visitExpr_number (v : Float) (s : CGState) :
    visitExpr (ExprAST.number v) s =
      { s with lastValue := some (Value.constFP v) } := rfl

theorem visitExpr_variable (name : String) (s : CGState) :
    visitExpr (ExprAST.variable name) s = visitVariableCase name s := rfl

theorem visitExpr_unary (opcode : Char) (e : ExprAST) (s : CGState) :
    visitExpr (ExprAST.unary opcode e) s =
      unaryFinish opcode (visitExpr e s) := rfl

theorem visitExpr_binary (op : Char) (l r : ExprAST) (s : CGState) :
    visitExpr (ExprAST.binary op l r) s =
      (if op = '=' then
        match l with
        | ExprAST.variable lname => binAssignFinish lname (visitExpr r s)
        | _ =>
            { logError s "destination of '=' must be a variable" with
                lastValue := none }
      else
        let s1 := visitExpr l s
        binFinish op s1.lastValue (visitExpr r s1)) := rfl

theorem visitExpr_declaration (vars : List (String × Option ExprAST))
    (body : ExprAST) (s : CGState) :
    visitExpr (ExprAST.declaration vars body) s =
      (match visitDeclVars vars s [] with
       | (s, _, false) => s
       | (s, olds, true) => declRestore olds (visitExpr body s)) := rfl

theorem visitExpr_call (callee : String) (args : List ExprAST)
    (s : CGState) :
    visitExpr (ExprAST.call callee args) s =
      (match callCheck callee args.length s with
       | (s, none) => s
       | (s, some fname) =>
         match visitArgs args s [] with
         | (s, _, false) => s
         | (s, vals, true) => emitCallTmp fname vals s) := rfl

theorem visitExpr_forE (varName : String) (start stepE endE body : ExprAST)
    (s : CGState) :
    visitExpr (ExprAST.forE varName start stepE endE body) s =
      (match createEntryBlockAlloca s varName with
       | (slot, s) =>
         match forHeader varName slot (visitExpr start s) with
         | (s, none) => s
         | (s, some (loopBB, oldVar)) =>
           let s := visitExpr body s
           match s.lastValue with
           | none => s
           | some _ =>
             match forStep slot (visitExpr stepE s) with
             | (s, false) => s
             | (s, true) =>
                 forClose varName loopBB oldVar (visitExpr endE s)) := rfl

/-- The non-JIT path of `visit(FunctionAST&)`: clone the prototype into
`functionProtos`, resolve the function, create the `entry` block, reset
`namedValues` with parameter slots, emit the body; on success emit the
return, verify, run the function-pass manager, and set `lastFunction`. -/
def visitFuncRaw (node : FunctionAST) (s : CGState) : CGState :=
  let s := { s with
    functionProtos := insertA s.functionProtos node.proto.name node.proto }
  match getFunction node.proto.name s with
  | (none, s) => s  -- unreachable: the prototype was just registered
  | (some fn, s) =>
    let entry := s.nextBlock
    let s := { s with nextBlock := s.nextBlock + 1, curBlock := entry,
                      entryBlock := entry }
    let s := { s with namedValues := [] }
    -- the argument loop runs over the resolved function's arity and indexes
    -- the node's prototype argument names (as the source does)
    let s := (List.range fn.arity).foldl
      (fun s i =>
        let nm := node.proto.args.getD i ""
        let (a, s) := createEntryBlockAlloca s nm
        let s := emit s (Instr.store (Value.arg i) a)
        { s with namedValues := insertA s.namedValues nm a }) s
    let s := visitExpr node.body s
    match s.lastValue with
    | some retVal =>
      let s := emit s (Instr.ret retVal)
      -- verifyFunction, then passManager->run(*function)
      let s := { s with passRuns := s.passRuns ++ [(fn.name, s.passes)] }
      { s with lastFunction := some fn }
    | none => { s with lastFunction := none }

/-- `handleTopLevelExpression`: clear the flag, re-enter emission (the flag
is now false, so `accept` reaches the plain emission path), and on success
submit the module to the JIT, reinitialize, resolve `__anon_expr` and run
it.  The returned `Option Float` is the value pushed onto the evaluation
results, if any; `oracle` abstracts JIT address resolution and native
execution over the submitted modules. -/
def handleTopLevelExpression (oracle : List (List FuncDecl) → Option Float)
    (node : FunctionAST) (s : CGState) : CGState × Option Float :=
  let s := { s with jitTopLevel := false }
  let s := visitFuncRaw node s
  match s.lastFunction with
  | none => (s, none)
  | some _ =>
    let s := { s with submitted := s.submitted ++ [s.module], module := [] }
    let s := initModuleAndPassManager s
    -- findSymbol("__anon_expr") succeeds (a module containing it was just
    -- submitted); getAddress and the call through the function pointer are
    -- the oracle.  A none result is the getAddress error path (skipped).
    match oracle s.submitted with
    | none => (s, none)
    | some v => (s, some v)

/-- `handleTopLevelDefinition`: clear the flag, submit the current module,
reinitialize, then re-enter function emission (flag now false). -/
def handleTopLevelDefinition (node : FunctionAST) (s : CGState) : CGState :=
  let s := { s with jitTopLevel := false }
  let s := { s with submitted := s.submitted ++ [s.module], module := [] }
  let s := initModuleAndPassManager s
  visitFuncRaw node s

/-- `visit(FunctionAST&)`: dispatch on the `jitTopLevel` flag and the
reserved prototype name `__anon_expr`. -/
def visitFunc (oracle : List (List FuncDecl) → Option Float)
    (node : FunctionAST) (s : CGState) : CGState × Option Float :=
  if s.jitTopLevel && node.proto.name == "__anon_expr" then
    handleTopLevelExpression oracle node s
  else if s.jitTopLevel then
    (handleTopLevelDefinition node s, none)
  else
    (visitFuncRaw node s, none)

/-- `node->accept(*this)` on a top-level AST node. -/
def visitNode (oracle : List (List FuncDecl) → Option Float) :
    ASTNode → CGState → CGState × Option Float
  | ASTNode.func f, s => visitFunc oracle f s
  | ASTNode.proto p, s => (visitProto p s, none)

/-- `ppformat`: the textual form of the last produced function, or the
compilation-error marker.  IR printing is abstracted to the function's
name; only the error string matters to the claims. -/
def ppformat (s : CGState) : String :=
  match s.lastFunction with
  | none => "Error during compilation\n"
  | some f => "define double @" ++ f.name ++ "\n"

/-- `getAssembly(astData, debug)`: set the debug flag if requested, visit
each non-null node appending its printed form, then clear the flag. -/
def getAssembly (oracle : List (List FuncDecl) → Option Float)
    (astData : List (Option ASTNode)) (debug : Bool) (s : CGState) :
    String × CGState :=
  let s := if debug then { s with debug := true } else s
  let (res, s) := astData.foldl
    (fun (acc : String × CGState) n =>
      match n with
      | none => acc
      | some node =>
        let (s, _) := visitNode oracle node acc.2
        (acc.1 ++ ppformat s, s)) ("", s)
  (res, { s with debug := false })

/-- One iteration of the `evaluate` loop: skip null entries, otherwise set
`jitTopLevel` and visit the node; the second component is the value the
node contributed to the evaluation results, if any. -/
def processNode (oracle : List (List FuncDecl) → Option Float)
    (n : Option ASTNode) (s : CGState) : CGState × Option Float :=
  match n with
  | none => (s, none)
  | some node => visitNode oracle node { s with jitTopLevel := true }

/-- `evaluate(astData)`: a fresh result vector, then the node loop; returns
the collected values of the executed top-level anonymous expressions. -/
def evaluate (oracle : List (List FuncDecl) → Option Float)
    (astData : List (Option ASTNode)) (s : CGState) :
    List Float × CGState :=
  astData.foldl
    (fun (acc : List Float × CGState) n =>
      (acc.1 ++ ((processNode oracle n acc.2).2).toList,
       (processNode oracle n acc.2).1)) ([], s)

/-! ## Claim C1 -/

/-- A mid-function generator state in which an unrelated (sibling) binding
`p ↦ slot 7` exists before a declaration is emitted. -/
def c1State : CGState :=
  { initialState with
      namedValues := [("p", 7)], allocaNames := [(7, "p")],
      nextId := 8, curBlock := 1, entryBlock := 1, nextBlock := 2 }

/-- The declaration `var x in 1.0` (no initializer, constant body). -/
def c1Node : ExprAST := ExprAST.declaration [("x", none)] (ExprAST.number 1.0)

/-- C1: evaluation of the code at the failing input.  Before emitting
`var x in 1.0`, Named Values maps the sibling binding `p` (not shadowed by
the declaration) to slot 7; the claim requires that binding to be present
afterwards.  The code instead clears Named Values and restores only the
declared names' saved slots, so after emission `p` is gone — the
declaration's own name `x` is correctly removed and the emission itself
succeeded (`lastValue` is the body's value). -/
theorem c1_decl_drops_sibling_binding :
    lookupA c1State.namedValues "p" = some 7 ∧
    lookupA (visitExpr c1Node c1State).namedValues "p" = none ∧
    lookupA (visitExpr c1Node c1State).namedValues "x" = none ∧
    (visitExpr c1Node c1State).lastValue = some (Value.constFP 1.0) := by
  refine ⟨rfl, rfl, rfl, rfl⟩

/-! ## Claim C2 -/

/-- A mid-function generator state with no bindings at all. -/
def c2State : CGState :=
  { initialState with curBlock := 1, entryBlock := 1, nextBlock := 2 }

/-- C2: evaluation of the code at the failing input.  Emitting the variable
expression `x` with empty Named Values reports the "Unknown variable name"
diagnostic, but the visit is missing a `return`: it falls through to
`CreateLoad(varAddress, name)` with a null slot, so Last Value ends up as
the (non-null) load result instead of null — the claim's required null
Last Value never survives. -/
theorem c2_unknown_variable_not_null :
    (visitExpr (ExprAST.variable "x") c2State).diagnostics =
      ["Unknown variable name"] ∧
    (visitExpr (ExprAST.variable "x") c2State).trace =
      [(1, Instr.load none "x" 0)] ∧
    (visitExpr (ExprAST.variable "x") c2State).lastValue =
      some (Value.inst 0) ∧
    (visitExpr (ExprAST.variable "x") c2State).lastValue ≠ none := by
  refine ⟨rfl, rfl, rfl, ?_⟩
  intro h
  rw [show (visitExpr (ExprAST.variable "x") c2State).lastValue =
        some (Value.inst 0) from rfl] at h
  exact Option.noConfusion h

/-! ## Claim C3 -/

/-- The if expression `if 1.0 then 2.0` with no else clause. -/
def c3Node : ExprAST := ExprAST.ifE (ExprAST.number 1.0) (ExprAST.number 2.0) none

/-- A function `f()` whose body is the else-less if expression. -/
def c3Func : FunctionAST := ⟨⟨"f", [], false, 0⟩, c3Node⟩

/-- C3: evaluation of the code at the failing input.  For an if expression
without an else clause the error "Omitted Else are not supported yet" is
reported, but `logErrorV`'s result is not assigned to Last Value: the visit
returns with Last Value still holding the then-branch value, so the claim's
required null Last Value does not happen and an enclosing function emits
successfully (`lastFunction` non-null) instead of failing. -/
theorem c3_omitted_else_not_null :
    (visitExpr c3Node c2State).diagnostics =
      ["Omitted Else are not supported yet"] ∧
    (visitExpr c3Node c2State).lastValue = some (Value.constFP 2.0) ∧
    (visitFuncRaw c3Func initialState).lastFunction =
      some ⟨"f", 0, []⟩ := by
  refine ⟨rfl, rfl, rfl⟩

/-! ## Claim C4 -/

/-- An oracle that is never consulted (no JIT interaction in
`getAssembly`). -/
def c4Oracle : List (List FuncDecl) → Option Float := fun _ => none

/-- The definition `def f(x) x`. -/
def c4Node : ASTNode :=
  ASTNode.func ⟨⟨"f", ["x"], false, 0⟩, ExprAST.variable "x"⟩

/-- C4: evaluation of the code at the failing input.  On a freshly
constructed visitor (whose constructor builds the pass manager with
`debug = false`, adding the five optimization passes),
`getAssembly([def f(x) x], debug = true)` sets the debug flag but never
rebuilds the pass manager, so the function-pass manager run on the emitted
function still contains all five passes — the claim requires it to contain
none. -/
theorem c4_debug_mode_still_runs_passes :
    ((getAssembly c4Oracle [some c4Node] true initialState).2).passRuns =
      [("f", theFivePasses)] ∧ theFivePasses ≠ [] := by
  refine ⟨rfl, by simp [theFivePasses]⟩

/-! ## Claim C5 -/

/-- A mid-function generator state with an empty trace. -/
def c5State : CGState :=
  { initialState with curBlock := 1, entryBlock := 1, nextBlock := 2 }

/-- The binary expression `(1.0 = 2.0) + (3.0 + 4.0)`: its left operand is
an illegal assignment (null emission), its right operand emits an `fadd`
instruction. -/
def c5Node : ExprAST :=
  ExprAST.binary '+'
    (ExprAST.binary '=' (ExprAST.number 1.0) (ExprAST.number 2.0))
    (ExprAST.binary '+' (ExprAST.number 3.0) (ExprAST.number 4.0))

/-- C5: counterexample.  The left operand of `+` yields a null Last Value
(illegal `=` destination, no instruction emitted), yet the emitted trace of
the whole binary expression is not empty: the right operand's `fadd` was
still emitted.  The claim asserts that no IR is emitted for the right
operand when the left operand's emission yields null. -/
theorem c5_right_operand_still_emitted :
    (visitExpr (ExprAST.binary '=' (ExprAST.number 1.0) (ExprAST.number 2.0))
        c5State).lastValue = none ∧
    (visitExpr c5Node c5State).lastValue = none ∧
    (visitExpr c5Node c5State).trace =
      [(1, Instr.fadd (Value.constFP 3.0) (Value.constFP 4.0) "addtmp" 0)] ∧
    (visitExpr c5Node c5State).trace ≠ c5State.trace := by
  refine ⟨rfl, rfl, rfl, ?_⟩
  intro h
  rw [show (visitExpr c5Node c5State).trace =
        [(1, Instr.fadd (Value.constFP 3.0) (Value.constFP 4.0) "addtmp" 0)]
      from rfl,
      show c5State.trace = [] from rfl] at h
  exact List.noConfusion h

/-- C5 (amended): for a non-assignment Binary expression both operands are
always emitted, in order; if either operand's emission yields a null Last
Value (in particular the left one), the node yields a null Last Value and
the final state is exactly the state after both operand emissions — no
operator instruction is added, but the right operand's IR and side effects
have occurred. -/
theorem c5_binary_null_propagation (op : Char) (l r : ExprAST) (s : CGState)
    (hop : op ≠ '=')
    (h : (visitExpr l s).lastValue = none ∨
         (visitExpr r (visitExpr l s)).lastValue = none) :
    visitExpr (ExprAST.binary op l r) s =
      { visitExpr r (visitExpr l s) with lastValue := none } := by
  rw [visitExpr_binary, if_neg hop]
  show binFinish op (visitExpr l s).lastValue (visitExpr r (visitExpr l s)) = _
  rcases h with h | h
  · rw [h]
    rcases hrv : (visitExpr r (visitExpr l s)).lastValue with _ | v <;>
      simp only [binFinish, hrv]
  · rcases hlv : (visitExpr l s).lastValue with _ | v <;>
      simp only [binFinish, h]

/-- C5 witness: the amended theorem applied at the concrete input
`(1.0 = 2.0) + 3.0`. -/
theorem c5_binary_null_propagation_witness :
    visitExpr
        (ExprAST.binary '+'
          (ExprAST.binary '=' (ExprAST.number 1.0) (ExprAST.number 2.0))
          (ExprAST.number 3.0)) c5State =
      { visitExpr (ExprAST.number 3.0)
          (visitExpr (ExprAST.binary '=' (ExprAST.number 1.0) (ExprAST.number 2.0))
            c5State) with lastValue := none } :=
  c5_binary_null_propagation '+'
    (ExprAST.binary '=' (ExprAST.number 1.0) (ExprAST.number 2.0))
    (ExprAST.number 3.0) c5State (by decide) (Or.inl rfl)

/-! ## Claim C6 -/

/-- An oracle for the C6 end-to-end scenario: every JIT execution returns
10.0. -/
def c6Oracle : List (List FuncDecl) → Option Float := fun _ => some 10.0

/-- `def g(x) x`. -/
def c6DefG : Option ASTNode :=
  some (ASTNode.func ⟨⟨"g", ["x"], false, 0⟩, ExprAST.variable "x"⟩)

/-- `def h(x) g(x)` — its body calls `g`, which by then lives in an
already-submitted module, exercising cross-module re-declaration. -/
def c6DefH : Option ASTNode :=
  some (ASTNode.func ⟨⟨"h", ["x"], false, 0⟩,
    ExprAST.call "g" [ExprAST.variable "x"]⟩)

/-- The wrapped top-level expression `h(4.0)`. -/
def c6Anon : Option ASTNode :=
  some (ASTNode.func ⟨⟨"__anon_expr", [], false, 0⟩,
    ExprAST.call "h" [ExprAST.number 4.0]⟩)

/-- C6: `getFunction(name)` returns the current module's function of that
name if present; otherwise, when the name is in Function Prototypes (and
the generator is not inside the single-shot JIT dispatch), it emits a fresh
declaration of the stored prototype into the current module and returns it;
otherwise it returns not-found.  The final conjuncts run the end-to-end
scenario `def g; def h(x) g(x); h(4.0)`: `g` is resolved inside `h`'s fresh
module from the prototype registry after `g`'s module was already
submitted, and the evaluation succeeds with no diagnostics. -/
theorem c6_getFunction_resolution :
    (∀ (name : String) (s : CGState) (f : FuncDecl),
        s.module.find? (fun g => g.name == name) = some f →
        getFunction name s = (some f, s)) ∧
    (∀ (name : String) (s : CGState) (p : PrototypeAST),
        s.module.find? (fun g => g.name == name) = none →
        lookupA s.functionProtos name = some p →
        s.jitTopLevel = false →
        getFunction name s =
          (some ⟨p.name, p.args.length, p.args⟩,
           { s with
               module := s.module ++ [⟨p.name, p.args.length, p.args⟩],
               lastFunction := some ⟨p.name, p.args.length, p.args⟩ })) ∧
    (∀ (name : String) (s : CGState),
        s.module.find? (fun g => g.name == name) = none →
        lookupA s.functionProtos name = none →
        getFunction name s = (none, s)) ∧
    (evaluate c6Oracle [c6DefG, c6DefH, c6Anon] initialState).1 = [10.0] ∧
    ((evaluate c6Oracle [c6DefG, c6DefH, c6Anon] initialState).2).diagnostics
      = [] := by
  refine ⟨?_, ?_, ?_, rfl, rfl⟩
  · intro name s f h
    unfold getFunction
    rw [h]
  · intro name s p h1 h2 h3
    unfold getFunction
    rw [h1, h2]
    simp only [visitProto, h3, Bool.false_eq_true, if_false, visitProtoRaw]
  · intro name s h1 h2
    unfold getFunction
    rw [h1, h2]

/-- A state whose current (fresh) module is empty while the prototype
registry remembers `g(x)` from an earlier module. -/
def c6WitState : CGState :=
  { initialState with functionProtos := [("g", ⟨"g", ["x"], false, 0⟩)] }

/-- C6 witness: the re-declaration branch of the theorem applied at a
concrete state. -/
theorem c6_getFunction_resolution_witness :
    getFunction "g" c6WitState =
      (some ⟨"g", 1, ["x"]⟩,
       { c6WitState with
           module := c6WitState.module ++ [⟨"g", 1, ["x"]⟩],
           lastFunction := some ⟨"g", 1, ["x"]⟩ }) :=
  c6_getFunction_resolution.2.1 "g" c6WitState ⟨"g", ["x"], false, 0⟩
    rfl rfl rfl

/-! ## Claim C7 -/

/-- Per-node contributions of the `evaluate` loop, threading the generator
state in input order. -/
def contributions (oracle : List (List FuncDecl) → Option Float) :
    List (Option ASTNode) → CGState → List (List Float)
  | [], _ => []
  | n :: rest, s =>
    ((processNode oracle n s).2.toList) ::
      contributions oracle rest (processNode oracle n s).1

/-- The `evaluate` fold accumulates exactly the flattened per-node
contributions, in input order. -/
theorem evaluate_foldl_join (oracle : List (List FuncDecl) → Option Float)
    (nodes : List (Option ASTNode)) :
    ∀ (acc : List Float) (s : CGState),
      (nodes.foldl
        (fun (acc : List Float × CGState) n =>
          (acc.1 ++ ((processNode oracle n acc.2).2).toList,
           (processNode oracle n acc.2).1)) (acc, s)).1
        = acc ++ (contributions oracle nodes s).flatten := by
  induction nodes with
  | nil => intro acc s; simp [contributions]
  | cons n rest ih =>
    intro acc s
    simp [List.foldl_cons, contributions, ih, List.append_assoc]

/-- An oracle for the C7 witness: every JIT execution returns 5.0. -/
def c7Oracle : List (List FuncDecl) → Option Float := fun _ => some 5.0

/-- The wrapped top-level expression `3.0` for the C7 witness. -/
def c7Anon : FunctionAST := ⟨⟨"__anon_expr", [], false, 0⟩, ExprAST.number 3.0⟩

/-- C7: `evaluate` returns exactly one float64 value per successfully
executed top-level anonymous expression, in input order, and nothing else:
null entries and extern nodes contribute no value; function definitions
(any non-`__anon_expr` name) contribute no value; an `__anon_expr` node
contributes no value when its emission fails, and contributes exactly the
JIT-executed value when emission succeeds and the symbol's address
resolves (the oracle); finally, the list `evaluate` returns is the
concatenation of these per-node contributions in input order. -/
theorem c7_evaluate_one_value_per_expression
    (oracle : List (List FuncDecl) → Option Float) :
    (∀ s : CGState, processNode oracle none s = (s, none)) ∧
    (∀ (p : PrototypeAST) (s : CGState),
        (processNode oracle (some (ASTNode.proto p)) s).2 = none) ∧
    (∀ (f : FunctionAST) (s : CGState), f.proto.name ≠ "__anon_expr" →
        (processNode oracle (some (ASTNode.func f)) s).2 = none) ∧
    (∀ (f : FunctionAST) (s : CGState), f.proto.name = "__anon_expr" →
        (visitFuncRaw f { s with jitTopLevel := false }).lastFunction = none →
        processNode oracle (some (ASTNode.func f)) s =
          (visitFuncRaw f { s with jitTopLevel := false }, none)) ∧
    (∀ (f : FunctionAST) (s : CGState), f.proto.name = "__anon_expr" →
        (visitFuncRaw f { s with jitTopLevel := false }).lastFunction ≠ none →
        processNode oracle (some (ASTNode.func f)) s =
          (initModuleAndPassManager
            { visitFuncRaw f { s with jitTopLevel := false } with
                submitted :=
                  (visitFuncRaw f { s with jitTopLevel := false }).submitted
                    ++ [(visitFuncRaw f { s with jitTopLevel := false }).module],
                module := [] },
           oracle
             ((visitFuncRaw f { s with jitTopLevel := false }).submitted
               ++ [(visitFuncRaw f { s with jitTopLevel := false }).module]))) ∧
    (∀ (nodes : List (Option ASTNode)) (s : CGState),
        (evaluate oracle nodes s).1 = (contributions oracle nodes s).flatten) := by
  refine ⟨fun s => rfl, fun p s => rfl, ?_, ?_, ?_, ?_⟩
  · intro f s h
    simp only [processNode, visitNode, visitFunc, Bool.true_and]
    rw [if_neg (by simp [h])]
    simp
  · intro f s h hfail
    simp only [processNode, visitNode, visitFunc, Bool.true_and]
    rw [if_pos (by simp [h])]
    simp only [handleTopLevelExpression]
    rw [hfail]
  · intro f s h hok
    obtain ⟨fd, hfd⟩ := Option.ne_none_iff_exists'.mp hok
    simp only [processNode, visitNode, visitFunc, Bool.true_and]
    rw [if_pos (by simp [h])]
    simp only [handleTopLevelExpression]
    rw [hfd]
    cases horacle :
        oracle ((visitFuncRaw f { s with jitTopLevel := false }).submitted
          ++ [(visitFuncRaw f { s with jitTopLevel := false }).module]) <;>
      simp [horacle, initModuleAndPassManager]
  · intro nodes s
    exact evaluate_foldl_join oracle nodes [] s

/-- C7 witness: the anonymous-expression conjunct and the concatenation
conjunct of the theorem applied at a concrete successful run. -/
theorem c7_evaluate_one_value_per_expression_witness :
    processNode c7Oracle (some (ASTNode.func c7Anon)) initialState =
      (initModuleAndPassManager
        { visitFuncRaw c7Anon { initialState with jitTopLevel := false } with
            submitted :=
              (visitFuncRaw c7Anon { initialState with jitTopLevel := false }).submitted
                ++ [(visitFuncRaw c7Anon { initialState with jitTopLevel := false }).module],
            module := [] },
       c7Oracle
         ((visitFuncRaw c7Anon { initialState with jitTopLevel := false }).submitted
           ++ [(visitFuncRaw c7Anon { initialState with jitTopLevel := false }).module])) ∧
    (evaluate c7Oracle [some (ASTNode.func c7Anon)] initialState).1 = [5.0] :=
  ⟨(c7_evaluate_one_value_per_expression c7Oracle).2.2.2.2.1 c7Anon
      initialState rfl
      (by
        intro hnone
        rw [show (visitFuncRaw c7Anon
              { initialState with jitTopLevel := false }).lastFunction =
            some ⟨"__anon_expr", 0, []⟩ from rfl] at hnone
        exact Option.noConfusion hnone),
   ((c7_evaluate_one_value_per_expression c7Oracle).2.2.2.2.2
      [some (ASTNode.func c7Anon)] initialState).trans rfl⟩

/-! ## Claim C8 -/

/-- `getFunction` never emits instructions: it touches only the module, the
prototype registry and `lastFunction`. -/
theorem getFunction_trace (name : String) (s : CGState) :
    ((getFunction name s).2).trace = s.trace := by
  unfold getFunction
  cases hf : s.module.find? (fun g => g.name == name) with
  | some f => rfl
  | none =>
    cases hp : lookupA s.functionProtos name with
    | some p =>
      simp only [visitProto]
      cases hb : s.jitTopLevel <;>
        simp [hb, handleTopLevelExtern, visitProtoRaw]
    | none => rfl

/-- C8: when the resolved callee's declared arity differs from the call's
argument count, the visit logs "Invalid number of arguments" and yields a
null Last Value, with the emitted trace exactly as before the call — in
particular no IR was emitted for any argument expression. -/
theorem c8_arity_mismatch_before_args (callee : String)
    (args : List ExprAST) (s s1 : CGState) (f : FuncDecl)
    (h : getFunction callee s = (some f, s1))
    (har : f.arity ≠ args.length) :
    visitExpr (ExprAST.call callee args) s =
      { s1 with
          diagnostics := s1.diagnostics ++ ["Invalid number of arguments"],
          lastValue := none } ∧
    s1.trace = s.trace := by
  constructor
  · rw [visitExpr_call]
    simp only [callCheck]
    rw [h]
    dsimp only
    rw [if_pos har]
    simp [logError]
  · have h2 := getFunction_trace callee s
    rw [h] at h2
    exact h2

/-- A state whose current module declares `g` with arity 2. -/
def c8State : CGState :=
  { initialState with module := [⟨"g", 2, ["a", "b"]⟩],
                      curBlock := 1, entryBlock := 1, nextBlock := 2 }

/-- C8 witness: the theorem applied at the concrete call `g(1.0)` against
the binary declaration `g(a, b)`. -/
theorem c8_arity_mismatch_before_args_witness :
    visitExpr (ExprAST.call "g" [ExprAST.number 1.0]) c8State =
      { c8State with
          diagnostics := c8State.diagnostics ++ ["Invalid number of arguments"],
          lastValue := none } ∧
    c8State.trace = c8State.trace :=
  c8_arity_mismatch_before_args "g" [ExprAST.number 1.0] c8State c8State
    ⟨"g", 2, ["a", "b"]⟩ rfl (by decide)

/-! ## Claim C9 -/

/-- Trace effect of `forEntry`: a store of the start value and a branch to
the `loop` block, both in the pre-loop insertion block. -/
theorem forEntry_trace (varName : String) (slot : Nat) (startV : Value)
    (s : CGState) :
    (forEntry varName slot startV s).trace =
      s.trace ++ [(s.curBlock, Instr.store startV slot),
                  (s.curBlock, Instr.br s.nextBlock)] := by
  simp [forEntry, emit]

/-- Trace effect of `forAdvance`: the load-add-store that advances the
induction variable, in the current insertion block. -/
theorem forAdvance_trace (slot : Nat) (v : Value) (s : CGState) :
    (forAdvance slot v s).trace =
      s.trace ++ [(s.curBlock, Instr.loadSlot slot s.nextId),
                  (s.curBlock,
                   Instr.fadd (Value.inst s.nextId) v "nextvar" (s.nextId + 1)),
                  (s.curBlock, Instr.store (Value.inst (s.nextId + 1)) slot)] := by
  simp [forAdvance, emit, freshVal]

/-- Trace effect of `forExit`: the `loopcond` comparison of the end value
and the conditional back-edge, in the current insertion block. -/
theorem forExit_trace (varName : String) (loopBB : Nat) (oldVar : Option Nat)
    (endV : Value) (s : CGState) :
    (forExit varName loopBB oldVar endV s).trace =
      s.trace ++ [(s.curBlock,
                   Instr.fcmpONE endV (Value.constFP 0.0) "loopcond" s.nextId),
                  (s.curBlock,
                   Instr.condBr (Value.inst s.nextId) loopBB s.nextBlock)] := by
  cases oldVar <;> simp [forExit, emit, freshVal]

/-- C9: emission order of a For expression.  With each stage's emission
pinned (`sS` after `start`, `sB` after the body, `sSt` after `step`, `sE`
after `end`, each appending its trace delta and yielding a non-null value),
the final trace interleaves them exactly as: alloca (entry block), start,
store + branch into the loop, then — inside the loop — the body first,
then the step, then the induction variable's load-add-store, and only then
the end expression, followed by its comparison against 0.0 and the
conditional back-edge; so the end condition is emitted strictly after the
slot update and observes the already-updated induction variable. -/
theorem c9_for_loop_emission_order
    (varName : String) (start stepE endE body : ExprAST)
    (s sA sS sB sSt sE : CGState) (slot : Nat)
    (startV bv stepV endV : Value)
    (dStart dBody dStep dEnd : List (Nat × Instr))
    (ha : createEntryBlockAlloca s varName = (slot, sA))
    (hs : visitExpr start sA = sS)
    (hsv : sS.lastValue = some startV)
    (hsd : sS.trace = sA.trace ++ dStart)
    (hb : visitExpr body (forEntry varName slot startV sS) = sB)
    (hbv : sB.lastValue = some bv)
    (hst : visitExpr stepE sB = sSt)
    (hstv : sSt.lastValue = some stepV)
    (hstd : sSt.trace = sB.trace ++ dStep)
    (hbd : sB.trace = (forEntry varName slot startV sS).trace ++ dBody)
    (he : visitExpr endE (forAdvance slot stepV sSt) = sE)
    (hev : sE.lastValue = some endV)
    (hed : sE.trace = (forAdvance slot stepV sSt).trace ++ dEnd) :
    (visitExpr (ExprAST.forE varName start stepE endE body) s).trace =
      s.trace
        ++ [(s.entryBlock, Instr.alloca varName s.nextId)]
        ++ dStart
        ++ [(sS.curBlock, Instr.store startV slot),
            (sS.curBlock, Instr.br sS.nextBlock)]
        ++ dBody
        ++ dStep
        ++ [(sSt.curBlock, Instr.loadSlot slot sSt.nextId),
            (sSt.curBlock,
             Instr.fadd (Value.inst sSt.nextId) stepV "nextvar" (sSt.nextId + 1)),
            (sSt.curBlock, Instr.store (Value.inst (sSt.nextId + 1)) slot)]
        ++ dEnd
        ++ [(sE.curBlock,
             Instr.fcmpONE endV (Value.constFP 0.0) "loopcond" sE.nextId),
            (sE.curBlock,
             Instr.condBr (Value.inst sE.nextId) sS.nextBlock sE.nextBlock)] := by
  have hAtrace : sA.trace =
      s.trace ++ [(s.entryBlock, Instr.alloca varName s.nextId)] := by
    have h2 := congrArg Prod.snd ha
    simp only [createEntryBlockAlloca, freshVal] at h2
    rw [← h2]
  rw [visitExpr_forE, ha]
  dsimp only
  rw [hs]
  simp only [forHeader]
  rw [hsv]
  dsimp only
  rw [hb, hbv]
  dsimp only
  rw [hst]
  simp only [forStep]
  rw [hstv]
  dsimp only
  rw [he]
  simp only [forClose]
  rw [hev]
  rw [forExit_trace, hed, forAdvance_trace, hstd, hbd, forEntry_trace, hsd,
      hAtrace]

/-- A mid-function generator state for the C9 witness. -/
def c9WitState : CGState :=
  { initialState with curBlock := 1, entryBlock := 1, nextBlock := 2 }

/-- The loop `for i = 1.0, step 1.0, end (i < 10.0) in i`. -/
def c9WitNode : ExprAST :=
  ExprAST.forE "i" (ExprAST.number 1.0) (ExprAST.number 1.0)
    (ExprAST.binary '<' (ExprAST.variable "i") (ExprAST.number 10.0))
    (ExprAST.variable "i")

/-- C9 witness: the theorem applied at a concrete loop; in the loop block
(block 2) the body's load comes first, then the load-add-store advance,
and only then the end condition's instructions. -/
theorem c9_for_loop_emission_order_witness :
    (visitExpr c9WitNode c9WitState).trace =
      [(1, Instr.alloca "i" 0),
       (1, Instr.store (Value.constFP 1.0) 0),
       (1, Instr.br 2),
       (2, Instr.load (some 0) "i" 1),
       (2, Instr.loadSlot 0 2),
       (2, Instr.fadd (Value.inst 2) (Value.constFP 1.0) "nextvar" 3),
       (2, Instr.store (Value.inst 3) 0),
       (2, Instr.load (some 0) "i" 4),
       (2, Instr.fcmpULT (Value.inst 4) (Value.constFP 10.0) "cmptmp" 5),
       (2, Instr.uiToFP (Value.inst 5) "booltmp" 6),
       (2, Instr.fcmpONE (Value.inst 6) (Value.constFP 0.0) "loopcond" 7),
       (2, Instr.condBr (Value.inst 7) 2 3)] := by
  have h := c9_for_loop_emission_order "i" (ExprAST.number 1.0)
    (ExprAST.number 1.0)
    (ExprAST.binary '<' (ExprAST.variable "i") (ExprAST.number 10.0))
    (ExprAST.variable "i") c9WitState _ _ _ _ _ _ _ _ _ _ _ _ _ _
    rfl rfl rfl rfl rfl rfl rfl rfl rfl rfl rfl rfl rfl
  exact h.trans rfl

/-! ## Claim C10 -/

/-- A mid-function generator state for C10. -/
def c10State : CGState :=
  { initialState with curBlock := 1, entryBlock := 1, nextBlock := 2 }

/-- A loop body that succeeds but — through the declaration visitor's
clear-and-restore — wipes every other binding: `var j = 1.0 in 1.0`. -/
def c10Body : ExprAST :=
  ExprAST.declaration [("j", some (ExprAST.number 1.0))] (ExprAST.number 1.0)

/-- A step expression whose emission fails: the illegal assignment
`1.0 = 2.0`. -/
def c10Step : ExprAST :=
  ExprAST.binary '=' (ExprAST.number 1.0) (ExprAST.number 2.0)

/-- The loop `for i = 1.0, step (1.0 = 2.0), end 1.0 in (var j = 1.0 in
1.0)`: the body succeeds (clearing the symbol table), the step fails. -/
def c10Node : ExprAST :=
  ExprAST.forE "i" (ExprAST.number 1.0) c10Step (ExprAST.number 1.0) c10Body

/-- C10: counterexample.  On loop entry the loop variable `i` is bound to
the loop's slot 0 (last conjunct), and the step's emission fails (null
Last Value, "destination of '=' must be a variable"); but after the failed
visit Named Values does not map `i` at all — the body's declaration cleared
the table and the early return skipped every restoration — contradicting
the claim that Named Values still maps the loop's variable to the loop's
stack slot (or retains it). -/
theorem c10_failed_for_drops_loop_binding :
    lookupA (visitExpr c10Node c10State).namedValues "i" = none ∧
    (visitExpr c10Node c10State).lastValue = none ∧
    (visitExpr c10Node c10State).diagnostics =
      ["destination of '=' must be a variable"] ∧
    lookupA (forEntry "i" 0 (Value.constFP 1.0)
        (visitExpr (ExprAST.number 1.0)
          ((createEntryBlockAlloca c10State "i").2))).namedValues "i"
      = some 0 := by
  refine ⟨rfl, rfl, rfl, rfl⟩

/-- C10 (amended): when the body, step, or end emission of a For expression
yields a null Last Value, the visitor returns early with the generator
state exactly as the failing stage left it: the shadowed outer binding of
the loop variable is not restored (and no further instruction is emitted),
so Named Values keeps whatever binding for the loop variable the
sub-emissions left — the loop's stack slot whenever they did not themselves
rebind or remove it. -/
theorem c10_for_failure_no_restore
    (varName : String) (start stepE endE body : ExprAST)
    (s sA sS sB sSt sE : CGState) (slot : Nat) (startV bv stepV : Value)
    (ha : createEntryBlockAlloca s varName = (slot, sA))
    (hs : visitExpr start sA = sS)
    (hsv : sS.lastValue = some startV)
    (hb : visitExpr body (forEntry varName slot startV sS) = sB) :
    (sB.lastValue = none →
      visitExpr (ExprAST.forE varName start stepE endE body) s = sB) ∧
    (sB.lastValue = some bv → visitExpr stepE sB = sSt →
      sSt.lastValue = none →
      visitExpr (ExprAST.forE varName start stepE endE body) s = sSt) ∧
    (sB.lastValue = some bv → visitExpr stepE sB = sSt →
      sSt.lastValue = some stepV →
      visitExpr endE (forAdvance slot stepV sSt) = sE →
      sE.lastValue = none →
      visitExpr (ExprAST.forE varName start stepE endE body) s = sE) := by
  refine ⟨?_, ?_, ?_⟩
  · intro hbf
    rw [visitExpr_forE, ha]
    dsimp only
    rw [hs]
    simp only [forHeader]
    rw [hsv]
    dsimp only
    rw [hb, hbf]
  · intro hbv hst hstf
    rw [visitExpr_forE, ha]
    dsimp only
    rw [hs]
    simp only [forHeader]
    rw [hsv]
    dsimp only
    rw [hb, hbv]
    dsimp only
    rw [hst]
    simp only [forStep]
    rw [hstf]
  · intro hbv hst hstv he hef
    rw [visitExpr_forE, ha]
    dsimp only
    rw [hs]
    simp only [forHeader]
    rw [hsv]
    dsimp only
    rw [hb, hbv]
    dsimp only
    rw [hst]
    simp only [forStep]
    rw [hstv]
    dsimp only
    rw [he]
    simp only [forClose]
    rw [hef]

/-- C10 witness: the step-failure conjunct of the amended theorem applied
at the concrete loop of the counterexample — the visit returns exactly the
state the failed step emission left. -/
theorem c10_for_failure_no_restore_witness :
    visitExpr c10Node c10State =
      visitExpr c10Step
        (visitExpr c10Body
          (forEntry "i" 0 (Value.constFP 1.0)
            (visitExpr (ExprAST.number 1.0)
              ((createEntryBlockAlloca c10State "i").2)))) :=
  ((c10_for_failure_no_restore "i" (ExprAST.number 1.0) c10Step
      (ExprAST.number 1.0) c10Body c10State _ _ _ _ initialState _ _
      (Value.constFP 1.0) (Value.constFP 0.0) rfl rfl rfl rfl).2.1)
    rfl rfl rfl

end CKalei
